import Mathlib

/-!
Verification of the frame-quality scoring and embedding-fusion core of the
edge retail-store client (`client/frame_quality.py`, `client/visitor_counter.py`).

The per-criterion scoring functions are pure piecewise-rational formulas over
image statistics, so they are embedded over `ℚ`.  The multiplicative penalty
model and the fusion weights use fractional exponents (`factor ** (importance/5)`,
`score ** weight_power`), so they are embedded over `ℝ` with `Real.rpow`.
Frames themselves are an abstract type parameter; the external detector and
embedding extractor are modelled as function parameters, matching the spec's
collaborator interfaces.
-/

namespace EdgeRetail

/-- Face bounding box `(x1, y1, x2, y2)` in image pixel coordinates,
mirroring the `Tuple[int, int, int, int]` used throughout the source. -/
structure BBox where
  x1 : ℤ
  y1 : ℤ
  x2 : ℤ
  y2 : ℤ
deriving DecidableEq, Repr

/-- `score_face_size` from `frame_quality.py`: width at or above `critical_px`
scores 1, at or below `zero_px` scores 0, and in between a quadratic ramp
`((w - zero_px)/(critical_px - zero_px))^2` applies. -/
def score_face_size (bbox : BBox) (zero_px critical_px : ℚ) : ℚ :=
  let face_width : ℚ := ((bbox.x2 - bbox.x1 : ℤ) : ℚ)
  if critical_px ≤ face_width then 1
  else if face_width ≤ zero_px then 0
  else ((face_width - zero_px) / (critical_px - zero_px)) ^ 2

/-- `score_sharpness` from `frame_quality.py`, as a function of the Laplacian
variance of the face crop: 1 above `good`, linear `0.3 → 1.0` between
`critical` and `good`, quadratic `0.3 * (v/critical)^2` below `critical`. -/
def score_sharpness (variance : ℚ) (critical good : ℚ) : ℚ :=
  if good ≤ variance then 1
  else if critical ≤ variance then
    3/10 + 7/10 * ((variance - critical) / (good - critical))
  else 3/10 * (variance / critical) ^ 2

/-- `score_brightness` from `frame_quality.py`, as a function of the mean
grayscale intensity of the face crop. -/
def score_brightness (mean_brightness : ℚ)
    (critical_low good_low good_high critical_high : ℚ) : ℚ :=
  if good_low ≤ mean_brightness ∧ mean_brightness ≤ good_high then 1
  else if mean_brightness < good_low then
    if critical_low ≤ mean_brightness then
      2/5 + 3/5 * ((mean_brightness - critical_low) / (good_low - critical_low))
    else 2/5 * (mean_brightness / critical_low) ^ 2
  else
    if mean_brightness ≤ critical_high then
      2/5 + 3/5 * ((critical_high - mean_brightness) / (critical_high - good_high))
    else 2/5 * (1 - (mean_brightness - critical_high) / (255 - critical_high)) ^ 2

/-- `score_contrast` from `frame_quality.py`, as a function of the standard
deviation of the grayscale face crop; same shape as `score_sharpness`. -/
def score_contrast (std_dev : ℚ) (critical good : ℚ) : ℚ :=
  if good ≤ std_dev then 1
  else if critical ≤ std_dev then
    3/10 + 7/10 * ((std_dev - critical) / (good - critical))
  else 3/10 * (std_dev / critical) ^ 2

/-- `score_frontality` from `frame_quality.py`: yaw and pitch are each scored
with a good/critical ramp and combined as `0.6 * yaw_score + 0.4 * pitch_score`. -/
def score_frontality (yaw pitch : ℚ)
    (critical_yaw good_yaw critical_pitch good_pitch : ℚ) : ℚ :=
  let abs_yaw := |yaw|
  let abs_pitch := |pitch|
  let yaw_score :=
    if abs_yaw ≤ good_yaw then 1
    else if abs_yaw ≤ critical_yaw then
      3/10 + 7/10 * ((critical_yaw - abs_yaw) / (critical_yaw - good_yaw))
    else 3/10 * (1 - min ((abs_yaw - critical_yaw) / (90 - critical_yaw)) 1) ^ 2
  let pitch_score :=
    if abs_pitch ≤ good_pitch then 1
    else if abs_pitch ≤ critical_pitch then
      3/10 + 7/10 * ((critical_pitch - abs_pitch) / (critical_pitch - good_pitch))
    else 3/10 * (1 - min ((abs_pitch - critical_pitch) / (90 - critical_pitch)) 1) ^ 2
  6/10 * yaw_score + 4/10 * pitch_score

/-- The face-size sub-score lies in `[0, 1]` for every bbox and every pair of
thresholds (in the interpolation branch `zero_px < face_width < critical_px`
forces the denominator positive). -/
lemma score_face_size_mem_Icc (bbox : BBox) (zero_px critical_px : ℚ) :
    0 ≤ score_face_size bbox zero_px critical_px ∧
      score_face_size bbox zero_px critical_px ≤ 1 := by
  unfold score_face_size
  dsimp only
  set fw : ℚ := ((bbox.x2 - bbox.x1 : ℤ) : ℚ) with hfw
  split
  · exact ⟨zero_le_one, le_refl 1⟩
  · split
    · exact ⟨le_refl 0, zero_le_one⟩
    · rename_i h1 h2
      push_neg at h1 h2
      have hd : 0 < critical_px - zero_px := by linarith
      have hr0 : 0 ≤ (fw - zero_px) / (critical_px - zero_px) :=
        div_nonneg (by linarith) (le_of_lt hd)
      have hr1 : (fw - zero_px) / (critical_px - zero_px) ≤ 1 := by
        rw [div_le_one hd]; linarith
      constructor
      · positivity
      · nlinarith [sq_nonneg ((fw - zero_px) / (critical_px - zero_px))]

/-- The sharpness sub-score lies in `[0, 1]` for nonnegative variance and
`0 < critical < good`. -/
lemma score_sharpness_mem_Icc (variance critical good : ℚ)
    (hv : 0 ≤ variance) (hc : 0 < critical) (hcg : critical < good) :
    0 ≤ score_sharpness variance critical good ∧
      score_sharpness variance critical good ≤ 1 := by
  unfold score_sharpness
  split
  · exact ⟨zero_le_one, le_refl 1⟩
  · split
    · rename_i h1 h2
      push_neg at h1
      have hd : 0 < good - critical := by linarith
      have hr0 : 0 ≤ (variance - critical) / (good - critical) :=
        div_nonneg (by linarith) (le_of_lt hd)
      have hr1 : (variance - critical) / (good - critical) ≤ 1 := by
        rw [div_le_one hd]; linarith
      constructor <;> linarith
    · rename_i h1 h2
      push_neg at h1 h2
      have hr0 : 0 ≤ variance / critical := div_nonneg hv (le_of_lt hc)
      have hr1 : variance / critical ≤ 1 := by
        rw [div_le_one hc]; linarith
      constructor
      · positivity
      · nlinarith [sq_nonneg (variance / critical)]

/-- The brightness sub-score lies in `[0, 1]` for a mean intensity in `[0, 255]`
and a sane threshold ordering `0 < critical_low < good_low ≤ good_high <
critical_high < 255`. -/
lemma score_brightness_mem_Icc (m cl gl gh ch : ℚ)
    (hm0 : 0 ≤ m) (hm255 : m ≤ 255)
    (hcl : 0 < cl) (h1 : cl < gl) (h2 : gl ≤ gh) (h3 : gh < ch) (h4 : ch < 255) :
    0 ≤ score_brightness m cl gl gh ch ∧ score_brightness m cl gl gh ch ≤ 1 := by
  unfold score_brightness
  split
  · exact ⟨zero_le_one, le_refl 1⟩
  · rename_i hband
    push_neg at hband
    split
    · rename_i hlow
      split
      · rename_i hc
        have hd : 0 < gl - cl := by linarith
        have hr0 : 0 ≤ (m - cl) / (gl - cl) := div_nonneg (by linarith) (le_of_lt hd)
        have hr1 : (m - cl) / (gl - cl) ≤ 1 := by
          rw [div_le_one hd]; linarith
        constructor <;> linarith
      · rename_i hc
        push_neg at hc
        have hr0 : 0 ≤ m / cl := div_nonneg hm0 (le_of_lt hcl)
        have hr1 : m / cl ≤ 1 := by rw [div_le_one hcl]; linarith
        constructor
        · positivity
        · nlinarith [sq_nonneg (m / cl)]
    · rename_i hlow
      push_neg at hlow
      have hgh : gh < m := hband hlow
      split
      · rename_i hc
        have hd : 0 < ch - gh := by linarith
        have hr0 : 0 ≤ (ch - m) / (ch - gh) := div_nonneg (by linarith) (le_of_lt hd)
        have hr1 : (ch - m) / (ch - gh) ≤ 1 := by
          rw [div_le_one hd]; linarith
        constructor <;> linarith
      · rename_i hc
        push_neg at hc
        have hd : 0 < 255 - ch := by linarith
        have ho0 : 0 ≤ (m - ch) / (255 - ch) := div_nonneg (by linarith) (le_of_lt hd)
        have ho1 : (m - ch) / (255 - ch) ≤ 1 := by
          rw [div_le_one hd]; linarith
        constructor
        · positivity
        · nlinarith [sq_nonneg (1 - (m - ch) / (255 - ch))]

/-- The contrast sub-score lies in `[0, 1]` for nonnegative standard deviation
and `0 < critical < good`. -/
lemma score_contrast_mem_Icc (std_dev critical good : ℚ)
    (hv : 0 ≤ std_dev) (hc : 0 < critical) (hcg : critical < good) :
    0 ≤ score_contrast std_dev critical good ∧
      score_contrast std_dev critical good ≤ 1 := by
  unfold score_contrast
  split
  · exact ⟨zero_le_one, le_refl 1⟩
  · split
    · rename_i h1 h2
      push_neg at h1
      have hd : 0 < good - critical := by linarith
      have hr0 : 0 ≤ (std_dev - critical) / (good - critical) :=
        div_nonneg (by linarith) (le_of_lt hd)
      have hr1 : (std_dev - critical) / (good - critical) ≤ 1 := by
        rw [div_le_one hd]; linarith
      constructor <;> linarith
    · rename_i h1 h2
      push_neg at h1 h2
      have hr0 : 0 ≤ std_dev / critical := div_nonneg hv (le_of_lt hc)
      have hr1 : std_dev / critical ≤ 1 := by
        rw [div_le_one hc]; linarith
      constructor
      · positivity
      · nlinarith [sq_nonneg (std_dev / critical)]

/-- The single-axis component of the frontality score lies in `[0, 1]` when
`0 ≤ good < critical < 90`. -/
lemma frontality_axis_mem_Icc (a g c : ℚ)
    (hgc : g < c) (hc90 : c < 90) :
    0 ≤ (if a ≤ g then (1 : ℚ)
         else if a ≤ c then 3/10 + 7/10 * ((c - a) / (c - g))
         else 3/10 * (1 - min ((a - c) / (90 - c)) 1) ^ 2) ∧
      (if a ≤ g then (1 : ℚ)
       else if a ≤ c then 3/10 + 7/10 * ((c - a) / (c - g))
       else 3/10 * (1 - min ((a - c) / (90 - c)) 1) ^ 2) ≤ 1 := by
  split
  · exact ⟨zero_le_one, le_refl 1⟩
  · rename_i h1
    push_neg at h1
    split
    · rename_i h2
      have hd : 0 < c - g := by linarith
      have hr0 : 0 ≤ (c - a) / (c - g) := div_nonneg (by linarith) (le_of_lt hd)
      have hr1 : (c - a) / (c - g) ≤ 1 := by rw [div_le_one hd]; linarith
      constructor <;> linarith
    · rename_i h2
      push_neg at h2
      have hd : 0 < 90 - c := by linarith
      have ho0 : 0 ≤ (a - c) / (90 - c) := div_nonneg (by linarith) (le_of_lt hd)
      have hmin0 : 0 ≤ min ((a - c) / (90 - c)) 1 := le_min ho0 zero_le_one
      have hmin1 : min ((a - c) / (90 - c)) 1 ≤ 1 := min_le_right _ _
      constructor
      · positivity
      · nlinarith [sq_nonneg (1 - min ((a - c) / (90 - c)) 1)]

/-- The frontality sub-score lies in `[0, 1]` when both axis thresholds satisfy
`0 ≤ good < critical < 90`. -/
lemma score_frontality_mem_Icc (yaw pitch cy gy cp gp : ℚ)
    (hgy : 0 ≤ gy) (hy : gy < cy) (hcy : cy < 90)
    (hgp : 0 ≤ gp) (hp : gp < cp) (hcp : cp < 90) :
    0 ≤ score_frontality yaw pitch cy gy cp gp ∧
      score_frontality yaw pitch cy gy cp gp ≤ 1 := by
  unfold score_frontality
  dsimp only
  have hys := frontality_axis_mem_Icc |yaw| gy cy hy hcy
  have hps := frontality_axis_mem_Icc |pitch| gp cp hp hcp
  constructor
  · nlinarith [hys.1, hps.1]
  · nlinarith [hys.2, hps.2]

/-- `apply_penalty` from `frame_quality.py`: with importance 0 the score passes
through untouched; otherwise the factor value is clamped into `[0.001, 1]` and
the score is multiplied by `clamped ^ (importance / 5)` (real exponentiation,
matching Python's `**` on floats). -/
noncomputable def apply_penalty (score factor_value importance : ℝ) : ℝ :=
  if importance = 0 then score
  else score * (max 0.001 (min 1 factor_value)) ^ (importance / 5)

/-- The per-criterion importance weights passed to `compute_quality_score`
(`importance.get` for each named criterion). -/
structure Importance where
  frontality : ℝ
  sharpness : ℝ
  face_size : ℝ
  brightness : ℝ
  contrast : ℝ

/-- The five `[0,1]` sub-scores computed by `compute_quality_score` for one
frame before the multiplicative penalties are applied. -/
structure SubScores where
  frontality : ℝ
  sharpness : ℝ
  face_size : ℝ
  brightness : ℝ
  contrast : ℝ

/-- The penalty chain of `compute_quality_score` (`frame_quality.py` lines
606-612): starting from `base_score`, apply `apply_penalty` for frontality,
sharpness, face_size, brightness and contrast, in that order. -/
noncomputable def compute_quality_total (base_score : ℝ) (imp : Importance)
    (s : SubScores) : ℝ :=
  apply_penalty
    (apply_penalty
      (apply_penalty
        (apply_penalty
          (apply_penalty base_score s.frontality imp.frontality)
          s.sharpness imp.sharpness)
        s.face_size imp.face_size)
      s.brightness imp.brightness)
    s.contrast imp.contrast

/-- The clamped factor value lies in `[0.001, 1]`. -/
lemma clamp_mem (v : ℝ) :
    (0.001 : ℝ) ≤ max 0.001 (min 1 v) ∧ max 0.001 (min 1 v) ≤ 1 := by
  refine ⟨le_max_left _ _, ?_⟩
  apply max_le (by norm_num) (le_trans (min_le_left _ _) (le_refl 1))

/-- The clamped factor value is positive. -/
lemma clamp_pos (v : ℝ) : 0 < max 0.001 (min 1 v) :=
  lt_of_lt_of_le (by norm_num) (clamp_mem v).1

/-- Clamping is monotone. -/
lemma clamp_mono {v v' : ℝ} (h : v ≤ v') :
    max 0.001 (min 1 v) ≤ max 0.001 (min 1 v') :=
  max_le_max (le_refl _) (min_le_min (le_refl _) h)

/-- A penalty step keeps a positive score positive (the multiplier
`clamped ^ (importance/5)` is a real power of a positive base). -/
lemma apply_penalty_pos {t : ℝ} (ht : 0 < t) (v i : ℝ) :
    0 < apply_penalty t v i := by
  unfold apply_penalty
  split
  · exact ht
  · exact mul_pos ht (Real.rpow_pos_of_pos (clamp_pos v) _)

/-- A penalty step keeps a nonnegative score nonnegative. -/
lemma apply_penalty_nonneg {t : ℝ} (ht : 0 ≤ t) (v i : ℝ) :
    0 ≤ apply_penalty t v i := by
  unfold apply_penalty
  split
  · exact ht
  · exact mul_nonneg ht (le_of_lt (Real.rpow_pos_of_pos (clamp_pos v) _))

/-- With nonnegative importance a penalty step never increases a nonnegative
score: the multiplier is at most 1. -/
lemma apply_penalty_le_self {t : ℝ} (ht : 0 ≤ t) (v : ℝ) {i : ℝ} (hi : 0 ≤ i) :
    apply_penalty t v i ≤ t := by
  unfold apply_penalty
  split
  · exact le_refl t
  · have hm : (max 0.001 (min 1 v)) ^ (i / 5) ≤ 1 :=
      Real.rpow_le_one (le_of_lt (clamp_pos v)) (clamp_mem v).2
        (div_nonneg hi (by norm_num))
    exact mul_le_of_le_one_right ht hm

/-- A penalty step is monotone in the incoming score. -/
lemma apply_penalty_mono_score {t t' : ℝ} (h : t ≤ t') (v i : ℝ) :
    apply_penalty t v i ≤ apply_penalty t' v i := by
  unfold apply_penalty
  split
  · exact h
  · exact mul_le_mul_of_nonneg_right h
      (le_of_lt (Real.rpow_pos_of_pos (clamp_pos v) _))

/-- With strictly positive importance a penalty step is monotone
(non-decreasing) in the factor value. -/
lemma apply_penalty_mono_factor {t : ℝ} (ht : 0 ≤ t) {v v' : ℝ} (hv : v ≤ v')
    {i : ℝ} (hi : 0 < i) :
    apply_penalty t v i ≤ apply_penalty t v' i := by
  unfold apply_penalty
  rw [if_neg (ne_of_gt hi), if_neg (ne_of_gt hi)]
  refine mul_le_mul_of_nonneg_left ?_ ht
  exact Real.rpow_le_rpow (le_of_lt (clamp_pos v)) (clamp_mono hv)
    (div_nonneg (le_of_lt hi) (by norm_num))

/-- With importance 0 a penalty step ignores the factor value entirely. -/
lemma apply_penalty_zero (t v : ℝ) : apply_penalty t v 0 = t := by
  unfold apply_penalty
  rw [if_pos rfl]

/-- With importance 5 and factor value 0 the clamp floors the factor at 0.001,
so the step multiplies the score by exactly 0.001. -/
lemma apply_penalty_five_zero (t : ℝ) : apply_penalty t 0 5 = t * 0.001 := by
  unfold apply_penalty
  rw [if_neg (by norm_num)]
  norm_num

/-- With importance 5 and factor value 1 the step leaves the score unchanged. -/
lemma apply_penalty_five_one (t : ℝ) : apply_penalty t 1 5 = t := by
  unfold apply_penalty
  rw [if_neg (by norm_num)]
  norm_num

/-- The `QualityScore` dataclass of `frame_quality.py`: the combined total,
the five sub-scores, the pose estimate and the face bbox. -/
structure QualityScore where
  total : ℝ
  face_size : ℝ
  sharpness : ℝ
  brightness : ℝ
  contrast : ℝ
  frontality : ℝ
  yaw : ℝ
  pitch : ℝ
  bbox : BBox

/-- The all-zero `QualityScore` built by `select_best_frame` when even the
trigger frame cannot be scored. -/
def zeroQualityScore : QualityScore :=
  ⟨0, 0, 0, 0, 0, 0, 0, 0, ⟨0, 0, 0, 0⟩⟩

/-- The `PersonCapture` dataclass of `visitor_counter.py`: the captured
`(hires, lowres)` frame pairs and the trigger frame pair.  Frames are kept
abstract in the type parameter `α`. -/
structure PersonCapture (α : Type) where
  frames : List (α × α)
  trigger_frame : α × α

/-- One element of the scored-frame list produced by `score_frames_dual`:
`(frame_index, frame_hires, frame_lowres, score)`. -/
structure ScoredFrame (α : Type) where
  idx : ℕ
  hires : α
  lowres : α
  score : QualityScore

/-- The head/tail trim at the start of `select_best_frame`
(`visitor_counter.py` lines 194-199): Python's
`frames[skip_start : total - skip_end if skip_end > 0 else total]`,
applied only when `skip_start + skip_end < total`. -/
def trim_frames {β : Type} (frames : List β) (skip_start skip_end : ℕ) : List β :=
  let total := frames.length
  if skip_start + skip_end < total then
    (frames.take (if 0 < skip_end then total - skip_end else total)).drop skip_start
  else frames

/-- `score_frames_dual` from `frame_quality.py`: score each lowres frame with
the scorer (`compute_quality_score`, passed as a function, returning `none`
when no face is found), keep the frames that scored, and sort by total score
descending.  Python's stable `sort(key=..., reverse=True)` is modelled by a
stable merge sort with the reversed comparison. -/
noncomputable def score_frames_dual {α : Type}
    (scorer : α → Option QualityScore) (frames : List (α × α)) :
    List (ScoredFrame α) :=
  (frames.enum.filterMap fun p =>
      (scorer p.2.2).map fun q => ScoredFrame.mk p.1 p.2.1 p.2.2 q).mergeSort
    fun a b => decide (b.score.total ≤ a.score.total)

/-- `select_best_frame` from `visitor_counter.py`: trim, score and sort the
captured frames; if none scored, fall back to scoring the trigger frame, and
if that also fails substitute the all-zero score.  Returns
`(best_hires, best_lowres, best_score, all_scored_frames)`. -/
noncomputable def select_best_frame {α : Type}
    (scorer : α → Option QualityScore) (capture : PersonCapture α)
    (skip_start skip_end : ℕ) :
    α × α × QualityScore × List (ScoredFrame α) :=
  let frames := trim_frames capture.frames skip_start skip_end
  let scored := score_frames_dual scorer frames
  match scored with
  | [] =>
    (capture.trigger_frame.1, capture.trigger_frame.2,
      (scorer capture.trigger_frame.2).getD zeroQualityScore, [])
  | best :: rest =>
    (best.hires, best.lowres, best.score, best :: rest)

/-- Trimming returns a sublist of the original frame sequence. -/
lemma trim_frames_sublist {β : Type} (frames : List β) (s e : ℕ) :
    (trim_frames frames s e).Sublist frames := by
  unfold trim_frames
  dsimp only
  split
  · exact ((frames.take _).drop_sublist s).trans (frames.take_sublist _)
  · exact List.Sublist.refl frames

/-- When the combined skip counts reach the frame count, trimming is the
identity (the no-op branch of the guard). -/
lemma trim_frames_noop {β : Type} (frames : List β) (s e : ℕ)
    (h : frames.length ≤ s + e) : trim_frames frames s e = frames := by
  unfold trim_frames
  dsimp only
  rw [if_neg (by omega)]

/-- The result of one call to the external embedding extractor on a frame:
`(embedding, bbox, det_score)`, as returned by `extract_embeddings`. -/
abbrev FaceResult (n : ℕ) := (Fin n → ℝ) × BBox × ℝ

/-- The accumulation loop of `compute_fused_embedding` (`visitor_counter.py`
lines 252-283): walk the scored frames in order; skip a frame when its total
score is below `min_quality_score`, when the extractor finds no face in its
hires crop, or when the detection confidence is below `min_detection_score`;
keep `(frame, embedding, bbox, det_score)` for accepted frames and stop once
`top_n` frames have been accepted (`k` counts frames accepted so far). -/
def fuse_loop {α : Type} {n : ℕ} (extract : α → List (FaceResult n))
    (min_quality_score min_detection_score : ℝ) [DecidableRel ((· < ·) : ℝ → ℝ → Prop)]
    (top_n : ℕ) :
    List (ScoredFrame α) → ℕ → List (ScoredFrame α × FaceResult n)
  | [], _ => []
  | f :: rest, k =>
    if f.score.total < min_quality_score then
      fuse_loop extract min_quality_score min_detection_score top_n rest k
    else
      match extract f.hires with
      | [] => fuse_loop extract min_quality_score min_detection_score top_n rest k
      | r :: _ =>
        if r.2.2 < min_detection_score then
          fuse_loop extract min_quality_score min_detection_score top_n rest k
        else if top_n ≤ k + 1 then [(f, r)]
        else (f, r) :: fuse_loop extract min_quality_score min_detection_score top_n rest (k + 1)

/-- Euclidean norm of an embedding vector, as computed by
`np.linalg.norm`. -/
noncomputable def embedding_norm {n : ℕ} (v : Fin n → ℝ) : ℝ :=
  Real.sqrt (∑ i, v i ^ 2)

/-- Componentwise division of an embedding by its Euclidean norm
(`fused / np.linalg.norm(fused)`). -/
noncomputable def l2_normalize {n : ℕ} (v : Fin n → ℝ) : Fin n → ℝ :=
  fun i => v i / embedding_norm v

/-- `compute_fused_embedding` from `visitor_counter.py`: gate and collect up
to `top_n` frames with `fuse_loop`; if none survive return
`(none, [], none, none)`; otherwise weight each accepted frame by
`total ^ weight_power`, normalize the weights to sum to 1, average the
embeddings with those weights, re-normalize the average to unit length, and
report `(fused, (quality, det, weight) triples, first accepted lowres frame,
that same frame's score bbox)`. -/
noncomputable def compute_fused_embedding {α : Type} {n : ℕ}
    (extract : α → List (FaceResult n))
    (scored_frames : List (ScoredFrame α))
    (min_quality_score min_detection_score : ℝ)
    (top_n : ℕ) (weight_power : ℝ) :
    Option (Fin n → ℝ) × List (ℝ × ℝ × ℝ) × Option α × Option BBox :=
  match fuse_loop extract min_quality_score min_detection_score top_n scored_frames 0 with
  | [] => (none, [], none, none)
  | a :: rest =>
    let accepted := a :: rest
    let raw := accepted.map fun x => x.1.score.total ^ weight_power
    let weights := raw.map fun w => w / raw.sum
    let fused := (List.zipWith (fun w e => w • e) weights
      (accepted.map fun x => x.2.1)).sum
    (some (l2_normalize fused),
      List.zipWith (fun x w => (x.1.score.total, x.2.2.2, w)) accepted weights,
      some a.1.lowres, some a.1.score.bbox)

/-- Every frame accepted by `fuse_loop` passed the quality gate: its total
score is not below `min_quality_score`. -/
lemma fuse_loop_quality {α : Type} {n : ℕ} (extract : α → List (FaceResult n))
    (mq md : ℝ) [DecidableRel ((· < ·) : ℝ → ℝ → Prop)] (tn : ℕ) :
    ∀ (l : List (ScoredFrame α)) (k : ℕ) x,
      x ∈ fuse_loop extract mq md tn l k → ¬ x.1.score.total < mq := by
  intro l
  induction l with
  | nil => intro k x hx; simp [fuse_loop] at hx
  | cons f rest ih =>
    intro k x hx
    rw [fuse_loop] at hx
    split at hx
    · exact ih k x hx
    · rename_i hq
      split at hx
      · exact ih k x hx
      · split at hx
        · exact ih k x hx
        · split at hx
          · rw [List.mem_singleton] at hx
            subst hx
            exact hq
          · rcases List.mem_cons.mp hx with h | h
            · subst h; exact hq
            · exact ih (k + 1) x h

/-- Dividing every element of a list by a constant divides the sum. -/
lemma list_sum_map_div (l : List ℝ) (s : ℝ) :
    (l.map fun w => w / s).sum = l.sum / s := by
  induction l with
  | nil => simp
  | cons a t ih => simp [ih, add_div]

/-- Projecting the third component out of the fusion-details triples recovers
the weight list, provided the two zipped lists have equal length. -/
lemma zip_details_weights {α : Type} {n : ℕ} :
    ∀ (l : List (ScoredFrame α × FaceResult n)) (ws : List ℝ), l.length = ws.length →
      ((List.zipWith (fun x w => (x.1.score.total, x.2.2.2, w)) l ws).map
        fun t => t.2.2) = ws := by
  intro l
  induction l with
  | nil =>
    intro ws h
    cases ws with
    | nil => simp
    | cons b t => simp at h
  | cons a t ih =>
    intro ws h
    cases ws with
    | nil => simp at h
    | cons b u =>
      simp only [List.zipWith_cons_cons, List.map_cons, List.cons.injEq]
      exact ⟨trivial, ih u (by simpa using h)⟩

/-- The raw asymmetry sum of `estimate_pose_from_symmetry`: the summed
absolute pixel difference between the left half of the grayscale crop
(columns `0 .. w/2 - 1`) and the horizontally flipped right half, both
truncated to `min_w = w / 2` columns (`cv2.absdiff` then the sum underlying
`np.mean`).  Column `j` of the flipped right half is column `w - 1 - j` of
the crop. -/
def half_abs_diff_total (h w : ℕ) (pix : Fin h → Fin w → ℕ) : ℕ :=
  ∑ i : Fin h, ∑ j : Fin (w / 2),
    ((pix i ⟨j.val, lt_of_lt_of_le j.isLt (Nat.div_le_self w 2)⟩ : ℤ) -
      (pix i ⟨w - 1 - j.val, by
        have hj := j.isLt
        omega⟩ : ℤ)).natAbs

/-- `estimate_pose_from_symmetry` from `frame_quality.py`: split the grayscale
face crop into a left half and a horizontally flipped right half, take the
mean absolute pixel difference, normalize by 255 and scale linearly to at
most 45° of yaw; pitch is always 0.  Pixels are the 8-bit grayscale values
of the crop.  When the truncated halves are empty (`h * (w / 2) = 0`, e.g. a
width-1 crop), `np.mean` of the empty difference array is NaN — emitted as a
warning, not an exception — and the yaw becomes NaN; NaN is modelled as
`none`. -/
def estimate_pose_from_symmetry (h w : ℕ) (pix : Fin h → Fin w → ℕ) :
    Option ℚ × ℚ :=
  let min_w := w / 2
  if h * min_w = 0 then (none, 0)
  else
    let asymmetry : ℚ :=
      (((half_abs_diff_total h w pix : ℕ) : ℚ) / ((h * min_w : ℕ) : ℚ)) / 255
    (some (asymmetry * 45), 0)

/-- The raw asymmetry sum is bounded by the pixel range: at most
`255 * h * (w / 2)`. -/
lemma half_abs_diff_total_le (h w : ℕ) (pix : Fin h → Fin w → ℕ)
    (hpix : ∀ i j, pix i j ≤ 255) :
    half_abs_diff_total h w pix ≤ 255 * (h * (w / 2)) := by
  unfold half_abs_diff_total
  calc (∑ i : Fin h, ∑ j : Fin (w / 2),
      ((pix i ⟨j.val, lt_of_lt_of_le j.isLt (Nat.div_le_self w 2)⟩ : ℤ) -
        (pix i ⟨w - 1 - j.val, by
          have hj := j.isLt
          omega⟩ : ℤ)).natAbs)
      ≤ ∑ _i : Fin h, ∑ _j : Fin (w / 2), 255 := by
        apply Finset.sum_le_sum
        intro i _
        apply Finset.sum_le_sum
        intro j _
        have h1 := hpix i ⟨j.val, lt_of_lt_of_le j.isLt (Nat.div_le_self w 2)⟩
        have h2 := hpix i ⟨w - 1 - j.val, by
          have hj := j.isLt
          omega⟩
        omega
    _ = 255 * (h * (w / 2)) := by
        simp [Finset.sum_const, Finset.card_univ]
        ring

/-- C2: for every valid input — any bbox, any nonnegative Laplacian variance,
any mean grayscale intensity in `[0, 255]`, any nonnegative standard
deviation, any finite yaw/pitch — each per-criterion scoring function
(`score_face_size`, `score_sharpness`, `score_brightness`, `score_contrast`,
`score_frontality`) returns a value in the closed interval `[0, 1]`, for any
threshold configuration with the documented ordering. -/
theorem c2_subscores_in_unit_interval
    (bbox : BBox) (zero_px critical_px : ℚ)
    (variance sharp_critical sharp_good : ℚ)
    (hvar : 0 ≤ variance) (hsh1 : 0 < sharp_critical)
    (hsh2 : sharp_critical < sharp_good)
    (m cl gl gh ch : ℚ) (hm0 : 0 ≤ m) (hm255 : m ≤ 255)
    (hb1 : 0 < cl) (hb2 : cl < gl) (hb3 : gl ≤ gh) (hb4 : gh < ch) (hb5 : ch < 255)
    (std_dev con_critical con_good : ℚ)
    (hsd : 0 ≤ std_dev) (hco1 : 0 < con_critical) (hco2 : con_critical < con_good)
    (yaw pitch cy gy cp gp : ℚ)
    (hf1 : 0 ≤ gy) (hf2 : gy < cy) (hf3 : cy < 90)
    (hf4 : 0 ≤ gp) (hf5 : gp < cp) (hf6 : cp < 90) :
    (0 ≤ score_face_size bbox zero_px critical_px ∧
      score_face_size bbox zero_px critical_px ≤ 1) ∧
    (0 ≤ score_sharpness variance sharp_critical sharp_good ∧
      score_sharpness variance sharp_critical sharp_good ≤ 1) ∧
    (0 ≤ score_brightness m cl gl gh ch ∧ score_brightness m cl gl gh ch ≤ 1) ∧
    (0 ≤ score_contrast std_dev con_critical con_good ∧
      score_contrast std_dev con_critical con_good ≤ 1) ∧
    (0 ≤ score_frontality yaw pitch cy gy cp gp ∧
      score_frontality yaw pitch cy gy cp gp ≤ 1) :=
  ⟨score_face_size_mem_Icc bbox zero_px critical_px,
   score_sharpness_mem_Icc variance sharp_critical sharp_good hvar hsh1 hsh2,
   score_brightness_mem_Icc m cl gl gh ch hm0 hm255 hb1 hb2 hb3 hb4 hb5,
   score_contrast_mem_Icc std_dev con_critical con_good hsd hco1 hco2,
   score_frontality_mem_Icc yaw pitch cy gy cp gp hf1 hf2 hf3 hf4 hf5 hf6⟩

/-- Witness for C2 at the default thresholds of `frame_quality.py` and a
face of width 80 px, variance 100, brightness 128, contrast 20, pose
(20°, 5°). -/
theorem c2_subscores_in_unit_interval_witness :
    ((0:ℚ) ≤ 100 ∧ (0:ℚ) < 50 ∧ (50:ℚ) < 300 ∧
     (0:ℚ) ≤ 128 ∧ (128:ℚ) ≤ 255 ∧
     (0:ℚ) < 30 ∧ (30:ℚ) < 80 ∧ (80:ℚ) ≤ 180 ∧ (180:ℚ) < 230 ∧ (230:ℚ) < 255 ∧
     (0:ℚ) ≤ 20 ∧ (0:ℚ) < 15 ∧ (15:ℚ) < 50 ∧
     (0:ℚ) ≤ 15 ∧ (15:ℚ) < 35 ∧ (35:ℚ) < 90 ∧
     (0:ℚ) ≤ 10 ∧ (10:ℚ) < 30 ∧ (30:ℚ) < 90) ∧
    ((0 ≤ score_face_size ⟨0, 0, 80, 100⟩ 60 105 ∧
        score_face_size ⟨0, 0, 80, 100⟩ 60 105 ≤ 1) ∧
      (0 ≤ score_sharpness 100 50 300 ∧ score_sharpness 100 50 300 ≤ 1) ∧
      (0 ≤ score_brightness 128 30 80 180 230 ∧
        score_brightness 128 30 80 180 230 ≤ 1) ∧
      (0 ≤ score_contrast 20 15 50 ∧ score_contrast 20 15 50 ≤ 1) ∧
      (0 ≤ score_frontality 20 5 35 15 30 10 ∧
        score_frontality 20 5 35 15 30 10 ≤ 1)) :=
  ⟨by norm_num,
   c2_subscores_in_unit_interval ⟨0, 0, 80, 100⟩ 60 105 100 50 300
     (by norm_num) (by norm_num) (by norm_num)
     128 30 80 180 230 (by norm_num) (by norm_num) (by norm_num) (by norm_num)
     (by norm_num) (by norm_num) (by norm_num)
     20 15 50 (by norm_num) (by norm_num) (by norm_num)
     20 5 35 15 30 10 (by norm_num) (by norm_num) (by norm_num) (by norm_num)
     (by norm_num) (by norm_num)⟩

/-- C7: trimming a 10-frame session with `skip_start = 2`, `skip_end = 1`
keeps exactly Python's `frames[2:9]` — the 7 frames at indices 2 through 8 —
which is what `select_best_frame` then scores; and whenever the skip counts
reach the frame count (in particular when either skip value is at or above
it), the frame sequence is left entirely untouched. -/
theorem c7_trim_bounds {β : Type} :
    (∀ frames : List β, frames.length = 10 →
        trim_frames frames 2 1 = (frames.drop 2).take 7 ∧
          (trim_frames frames 2 1).length = 7) ∧
    (∀ (frames : List β) (skip_start skip_end : ℕ),
        frames.length ≤ skip_start + skip_end →
          trim_frames frames skip_start skip_end = frames) := by
  constructor
  · intro frames h10
    have heq : trim_frames frames 2 1 = (frames.drop 2).take 7 := by
      unfold trim_frames
      dsimp only
      rw [if_pos (by omega), if_pos (by omega), h10]
      rw [List.drop_take]
    refine ⟨heq, ?_⟩
    rw [heq]
    simp [h10]
  · intro frames s e h
    exact trim_frames_noop frames s e h

/-- Witness for C7 on the concrete sessions `List.range 10` and
`List.range 3` (the latter with skip counts exceeding the frame count). -/
theorem c7_trim_bounds_witness :
    ((List.range 10).length = 10 ∧
      trim_frames (List.range 10) 2 1 = ((List.range 10).drop 2).take 7 ∧
      (trim_frames (List.range 10) 2 1).length = 7) ∧
    ((List.range 3).length ≤ 5 + 0 ∧ trim_frames (List.range 3) 5 0 = List.range 3) :=
  ⟨⟨by simp, (c7_trim_bounds.1 (List.range 10) (by simp)).1,
     (c7_trim_bounds.1 (List.range 10) (by simp)).2⟩,
   ⟨by simp, c7_trim_bounds.2 (List.range 3) 5 0 (by simp)⟩⟩

/-- Counterexample to C9 as stated: a non-empty 1-by-1 grayscale crop is
covered by the claim, but its truncated halves are empty, so the mean
absolute difference is `np.mean` of an empty array — NaN — and the returned
yaw is NaN (`none`), not a value in `[0°, 45°]`. -/
theorem c9_counterexample :
    ¬ ∃ y : ℚ, (estimate_pose_from_symmetry 1 1 fun _ _ => 128).1 = some y ∧
      0 ≤ y ∧ y ≤ 45 := by
  rintro ⟨y, hy, -⟩
  simp [estimate_pose_from_symmetry] at hy

/-- C9 as amended: the symmetry-based pose fallback always returns normally
with pitch exactly 0°; for every crop at least two columns wide (so the
truncated halves are non-empty) the yaw estimate is a value in `[0°, 45°]`
(the normalized asymmetry scaled linearly by 45), while for a non-empty
width-1 crop the yaw is NaN (`none`) rather than an error. -/
theorem c9_symmetry_pose_amended (h w : ℕ) (pix : Fin h → Fin w → ℕ)
    (hh : 0 < h) (hpix : ∀ i j, pix i j ≤ 255) :
    (2 ≤ w → ∃ y : ℚ, (estimate_pose_from_symmetry h w pix).1 = some y ∧
      0 ≤ y ∧ y ≤ 45) ∧
    (w = 1 → (estimate_pose_from_symmetry h w pix).1 = none) ∧
    (estimate_pose_from_symmetry h w pix).2 = 0 := by
  refine ⟨?_, ?_, ?_⟩
  · intro hw
    have hbound := half_abs_diff_total_le h w pix hpix
    have hd : 0 < h * (w / 2) := Nat.mul_pos hh (Nat.div_pos hw (by norm_num))
    unfold estimate_pose_from_symmetry
    dsimp only
    rw [if_neg (Nat.pos_iff_ne_zero.mp hd)]
    have hden : (0:ℚ) < ((h * (w / 2) : ℕ) : ℚ) := by exact_mod_cast hd
    have htot : ((half_abs_diff_total h w pix : ℕ) : ℚ) ≤
        255 * ((h * (w / 2) : ℕ) : ℚ) := by
      push_cast
      exact_mod_cast Nat.cast_le.mpr (by simpa [Nat.mul_assoc] using hbound)
    have hmean0 : (0:ℚ) ≤
        ((half_abs_diff_total h w pix : ℕ) : ℚ) / ((h * (w / 2) : ℕ) : ℚ) :=
      div_nonneg (by positivity) (le_of_lt hden)
    have hmean : ((half_abs_diff_total h w pix : ℕ) : ℚ) /
        ((h * (w / 2) : ℕ) : ℚ) ≤ 255 := by
      rw [div_le_iff₀ hden]
      linarith
    refine ⟨_, rfl, ?_, ?_⟩
    · positivity
    · have hasym : ((half_abs_diff_total h w pix : ℕ) : ℚ) /
          ((h * (w / 2) : ℕ) : ℚ) / 255 ≤ 1 := by
        rw [div_le_one (by norm_num)]
        linarith
      nlinarith [hasym]
  · intro hw1
    subst hw1
    unfold estimate_pose_from_symmetry
    simp
  · unfold estimate_pose_from_symmetry
    dsimp only
    split <;> rfl

/-- Witness for amended C9 on a uniform 1-by-2 crop. -/
theorem c9_symmetry_pose_amended_witness :
    (0 < 1 ∧ (∀ (i : Fin 1) (j : Fin 2), (fun _ _ => 128) i j ≤ 255)) ∧
    ((2 ≤ 2 → ∃ y : ℚ,
        (estimate_pose_from_symmetry 1 2 fun _ _ => 128).1 = some y ∧
          0 ≤ y ∧ y ≤ 45) ∧
      ((2 : ℕ) = 1 → (estimate_pose_from_symmetry 1 2 fun _ _ => 128).1 = none) ∧
      (estimate_pose_from_symmetry 1 2 fun _ _ => 128).2 = 0) :=
  ⟨⟨by norm_num, fun _ _ => by norm_num⟩,
   c9_symmetry_pose_amended 1 2 (fun _ _ => 128) (by norm_num)
     (fun _ _ => by norm_num)⟩

/-- Counterexample to C1 as stated: with `base_score = 1000`, face_size
importance 5 and face_size sub-score 0.0 (and every other criterion
disabled), `apply_penalty` clamps the factor to 0.001, so the total is
`1000 * 0.001 ^ (5/5) = 1`, not 0. -/
theorem c1_counterexample :
    compute_quality_total 1000 ⟨0, 0, 5, 0, 0⟩ ⟨1, 1, 0, 1, 1⟩ ≠ 0 := by
  unfold compute_quality_total
  dsimp only
  rw [apply_penalty_zero, apply_penalty_zero, apply_penalty_five_zero,
    apply_penalty_zero, apply_penalty_zero]
  norm_num

/-- C1 as amended: with `base_score = 1000` and face_size importance 5, a
face_size sub-score of 0.0 is clamped to the 0.001 floor, so for any other
sub-scores and any nonnegative importances of the other criteria the total
is positive and at most 1 (never exactly 0); and with face_size sub-score
1.0 while every other criterion has importance 0, the total equals 1000
exactly. -/
theorem c1_face_size_extremes
    (ifr ish ibr ict sfr ssh sbr sct : ℝ)
    (hfr : 0 ≤ ifr) (hsh : 0 ≤ ish) (hbr : 0 ≤ ibr) (hct : 0 ≤ ict) :
    (0 < compute_quality_total 1000 ⟨ifr, ish, 5, ibr, ict⟩ ⟨sfr, ssh, 0, sbr, sct⟩ ∧
      compute_quality_total 1000 ⟨ifr, ish, 5, ibr, ict⟩ ⟨sfr, ssh, 0, sbr, sct⟩ ≤ 1) ∧
    compute_quality_total 1000 ⟨0, 0, 5, 0, 0⟩ ⟨sfr, ssh, 1, sbr, sct⟩ = 1000 := by
  refine ⟨⟨?_, ?_⟩, ?_⟩
  · unfold compute_quality_total
    dsimp only
    exact apply_penalty_pos (apply_penalty_pos (apply_penalty_pos
      (apply_penalty_pos (apply_penalty_pos (by norm_num) _ _) _ _) _ _) _ _) _ _
  · unfold compute_quality_total
    dsimp only
    have h1 : 0 ≤ apply_penalty 1000 sfr ifr :=
      apply_penalty_nonneg (by norm_num) _ _
    have h2 : 0 ≤ apply_penalty (apply_penalty 1000 sfr ifr) ssh ish :=
      apply_penalty_nonneg h1 _ _
    have le2 : apply_penalty (apply_penalty 1000 sfr ifr) ssh ish ≤ 1000 :=
      le_trans (apply_penalty_le_self h1 _ hsh) (apply_penalty_le_self (by norm_num) _ hfr)
    have e3 := apply_penalty_five_zero (apply_penalty (apply_penalty 1000 sfr ifr) ssh ish)
    have h3 : 0 ≤ apply_penalty (apply_penalty (apply_penalty 1000 sfr ifr) ssh ish) 0 5 := by
      rw [e3]
      exact mul_nonneg h2 (by norm_num)
    have le3 : apply_penalty (apply_penalty (apply_penalty 1000 sfr ifr) ssh ish) 0 5 ≤ 1 := by
      rw [e3]
      nlinarith
    have h4 : 0 ≤ apply_penalty
        (apply_penalty (apply_penalty (apply_penalty 1000 sfr ifr) ssh ish) 0 5) sbr ibr :=
      apply_penalty_nonneg h3 _ _
    calc apply_penalty (apply_penalty (apply_penalty (apply_penalty
            (apply_penalty 1000 sfr ifr) ssh ish) 0 5) sbr ibr) sct ict
        ≤ apply_penalty (apply_penalty (apply_penalty
            (apply_penalty 1000 sfr ifr) ssh ish) 0 5) sbr ibr :=
          apply_penalty_le_self h4 _ hct
      _ ≤ apply_penalty (apply_penalty (apply_penalty 1000 sfr ifr) ssh ish) 0 5 :=
          apply_penalty_le_self h3 _ hbr
      _ ≤ 1 := le3
  · unfold compute_quality_total
    dsimp only
    rw [apply_penalty_zero, apply_penalty_zero, apply_penalty_five_one,
      apply_penalty_zero, apply_penalty_zero]

/-- Witness for C1 as amended, with all other importances and sub-scores 0. -/
theorem c1_face_size_extremes_witness :
    ((0:ℝ) ≤ 0) ∧
    ((0 < compute_quality_total 1000 ⟨0, 0, 5, 0, 0⟩ ⟨0, 0, 0, 0, 0⟩ ∧
        compute_quality_total 1000 ⟨0, 0, 5, 0, 0⟩ ⟨0, 0, 0, 0, 0⟩ ≤ 1) ∧
      compute_quality_total 1000 ⟨0, 0, 5, 0, 0⟩ ⟨0, 0, 1, 0, 0⟩ = 1000) :=
  ⟨le_refl 0,
   c1_face_size_extremes 0 0 0 0 0 0 0 0 (le_refl 0) (le_refl 0) (le_refl 0) (le_refl 0)⟩

/-- C3: the combined total produced by the penalty chain is monotonically
non-decreasing in each criterion's sub-score when that criterion's importance
is positive, and entirely insensitive to the sub-score of any criterion whose
importance is 0 (holding everything else fixed). -/
theorem c3_total_monotone_and_insensitive (base : ℝ) (hbase : 0 ≤ base)
    (imp : Importance) (s : SubScores) :
    ((0 < imp.frontality → ∀ v v', v ≤ v' →
        compute_quality_total base imp { s with frontality := v } ≤
          compute_quality_total base imp { s with frontality := v' }) ∧
      (imp.frontality = 0 → ∀ v v',
        compute_quality_total base imp { s with frontality := v } =
          compute_quality_total base imp { s with frontality := v' })) ∧
    ((0 < imp.sharpness → ∀ v v', v ≤ v' →
        compute_quality_total base imp { s with sharpness := v } ≤
          compute_quality_total base imp { s with sharpness := v' }) ∧
      (imp.sharpness = 0 → ∀ v v',
        compute_quality_total base imp { s with sharpness := v } =
          compute_quality_total base imp { s with sharpness := v' })) ∧
    ((0 < imp.face_size → ∀ v v', v ≤ v' →
        compute_quality_total base imp { s with face_size := v } ≤
          compute_quality_total base imp { s with face_size := v' }) ∧
      (imp.face_size = 0 → ∀ v v',
        compute_quality_total base imp { s with face_size := v } =
          compute_quality_total base imp { s with face_size := v' })) ∧
    ((0 < imp.brightness → ∀ v v', v ≤ v' →
        compute_quality_total base imp { s with brightness := v } ≤
          compute_quality_total base imp { s with brightness := v' }) ∧
      (imp.brightness = 0 → ∀ v v',
        compute_quality_total base imp { s with brightness := v } =
          compute_quality_total base imp { s with brightness := v' })) ∧
    ((0 < imp.contrast → ∀ v v', v ≤ v' →
        compute_quality_total base imp { s with contrast := v } ≤
          compute_quality_total base imp { s with contrast := v' }) ∧
      (imp.contrast = 0 → ∀ v v',
        compute_quality_total base imp { s with contrast := v } =
          compute_quality_total base imp { s with contrast := v' })) := by
  have h1 : 0 ≤ apply_penalty base s.frontality imp.frontality :=
    apply_penalty_nonneg hbase _ _
  have h2 : 0 ≤ apply_penalty (apply_penalty base s.frontality imp.frontality)
      s.sharpness imp.sharpness := apply_penalty_nonneg h1 _ _
  have h3 : 0 ≤ apply_penalty (apply_penalty (apply_penalty base s.frontality
      imp.frontality) s.sharpness imp.sharpness) s.face_size imp.face_size :=
    apply_penalty_nonneg h2 _ _
  have h4 : 0 ≤ apply_penalty (apply_penalty (apply_penalty (apply_penalty base
      s.frontality imp.frontality) s.sharpness imp.sharpness) s.face_size
      imp.face_size) s.brightness imp.brightness := apply_penalty_nonneg h3 _ _
  refine ⟨⟨?_, ?_⟩, ⟨?_, ?_⟩, ⟨?_, ?_⟩, ⟨?_, ?_⟩, ⟨?_, ?_⟩⟩
  · intro hpos v v' hvv
    unfold compute_quality_total
    dsimp only
    exact apply_penalty_mono_score (apply_penalty_mono_score
      (apply_penalty_mono_score (apply_penalty_mono_score
        (apply_penalty_mono_factor hbase hvv hpos) _ _) _ _) _ _) _ _
  · intro h0 v v'
    unfold compute_quality_total
    dsimp only
    rw [h0, apply_penalty_zero, apply_penalty_zero]
  · intro hpos v v' hvv
    unfold compute_quality_total
    dsimp only
    exact apply_penalty_mono_score (apply_penalty_mono_score
      (apply_penalty_mono_score (apply_penalty_mono_factor h1 hvv hpos) _ _) _ _) _ _
  · intro h0 v v'
    unfold compute_quality_total
    dsimp only
    rw [h0, apply_penalty_zero, apply_penalty_zero]
  · intro hpos v v' hvv
    unfold compute_quality_total
    dsimp only
    exact apply_penalty_mono_score (apply_penalty_mono_score
      (apply_penalty_mono_factor h2 hvv hpos) _ _) _ _
  · intro h0 v v'
    unfold compute_quality_total
    dsimp only
    rw [h0, apply_penalty_zero, apply_penalty_zero]
  · intro hpos v v' hvv
    unfold compute_quality_total
    dsimp only
    exact apply_penalty_mono_score (apply_penalty_mono_factor h3 hvv hpos) _ _
  · intro h0 v v'
    unfold compute_quality_total
    dsimp only
    rw [h0, apply_penalty_zero, apply_penalty_zero]
  · intro hpos v v' hvv
    unfold compute_quality_total
    dsimp only
    exact apply_penalty_mono_factor h4 hvv hpos
  · intro h0 v v'
    unfold compute_quality_total
    dsimp only
    rw [h0, apply_penalty_zero, apply_penalty_zero]

/-- Witness for C3 at `base_score = 1000` with the production importance
configuration (frontality 8, sharpness 0, face_size 5, brightness 0,
contrast 0). -/
theorem c3_total_monotone_and_insensitive_witness :
    ((0:ℝ) ≤ 1000) ∧
    (((0 < (Importance.mk 8 0 5 0 0).frontality → ∀ v v' : ℝ, v ≤ v' →
        compute_quality_total 1000 ⟨8, 0, 5, 0, 0⟩
            { SubScores.mk 1 1 1 1 1 with frontality := v } ≤
          compute_quality_total 1000 ⟨8, 0, 5, 0, 0⟩
            { SubScores.mk 1 1 1 1 1 with frontality := v' }) ∧
      ((Importance.mk 8 0 5 0 0).frontality = 0 → ∀ v v' : ℝ,
        compute_quality_total 1000 ⟨8, 0, 5, 0, 0⟩
            { SubScores.mk 1 1 1 1 1 with frontality := v } =
          compute_quality_total 1000 ⟨8, 0, 5, 0, 0⟩
            { SubScores.mk 1 1 1 1 1 with frontality := v' })) ∧
    ((0 < (Importance.mk 8 0 5 0 0).sharpness → ∀ v v' : ℝ, v ≤ v' →
        compute_quality_total 1000 ⟨8, 0, 5, 0, 0⟩
            { SubScores.mk 1 1 1 1 1 with sharpness := v } ≤
          compute_quality_total 1000 ⟨8, 0, 5, 0, 0⟩
            { SubScores.mk 1 1 1 1 1 with sharpness := v' }) ∧
      ((Importance.mk 8 0 5 0 0).sharpness = 0 → ∀ v v' : ℝ,
        compute_quality_total 1000 ⟨8, 0, 5, 0, 0⟩
            { SubScores.mk 1 1 1 1 1 with sharpness := v } =
          compute_quality_total 1000 ⟨8, 0, 5, 0, 0⟩
            { SubScores.mk 1 1 1 1 1 with sharpness := v' })) ∧
    ((0 < (Importance.mk 8 0 5 0 0).face_size → ∀ v v' : ℝ, v ≤ v' →
        compute_quality_total 1000 ⟨8, 0, 5, 0, 0⟩
            { SubScores.mk 1 1 1 1 1 with face_size := v } ≤
          compute_quality_total 1000 ⟨8, 0, 5, 0, 0⟩
            { SubScores.mk 1 1 1 1 1 with face_size := v' }) ∧
      ((Importance.mk 8 0 5 0 0).face_size = 0 → ∀ v v' : ℝ,
        compute_quality_total 1000 ⟨8, 0, 5, 0, 0⟩
            { SubScores.mk 1 1 1 1 1 with face_size := v } =
          compute_quality_total 1000 ⟨8, 0, 5, 0, 0⟩
            { SubScores.mk 1 1 1 1 1 with face_size := v' })) ∧
    ((0 < (Importance.mk 8 0 5 0 0).brightness → ∀ v v' : ℝ, v ≤ v' →
        compute_quality_total 1000 ⟨8, 0, 5, 0, 0⟩
            { SubScores.mk 1 1 1 1 1 with brightness := v } ≤
          compute_quality_total 1000 ⟨8, 0, 5, 0, 0⟩
            { SubScores.mk 1 1 1 1 1 with brightness := v' }) ∧
      ((Importance.mk 8 0 5 0 0).brightness = 0 → ∀ v v' : ℝ,
        compute_quality_total 1000 ⟨8, 0, 5, 0, 0⟩
            { SubScores.mk 1 1 1 1 1 with brightness := v } =
          compute_quality_total 1000 ⟨8, 0, 5, 0, 0⟩
            { SubScores.mk 1 1 1 1 1 with brightness := v' })) ∧
    ((0 < (Importance.mk 8 0 5 0 0).contrast → ∀ v v' : ℝ, v ≤ v' →
        compute_quality_total 1000 ⟨8, 0, 5, 0, 0⟩
            { SubScores.mk 1 1 1 1 1 with contrast := v } ≤
          compute_quality_total 1000 ⟨8, 0, 5, 0, 0⟩
            { SubScores.mk 1 1 1 1 1 with contrast := v' }) ∧
      ((Importance.mk 8 0 5 0 0).contrast = 0 → ∀ v v' : ℝ,
        compute_quality_total 1000 ⟨8, 0, 5, 0, 0⟩
            { SubScores.mk 1 1 1 1 1 with contrast := v } =
          compute_quality_total 1000 ⟨8, 0, 5, 0, 0⟩
            { SubScores.mk 1 1 1 1 1 with contrast := v' }))) :=
  ⟨by norm_num,
   c3_total_monotone_and_insensitive 1000 (by norm_num) ⟨8, 0, 5, 0, 0⟩ ⟨1, 1, 1, 1, 1⟩⟩

/-- C10: for every base score > 0, importances in `[0, 10]` and arbitrary
sub-scores, the combined total satisfies `0 < total ≤ base_score`: the clamp
into `[0.001, 1]` and the nonnegative exponents make every penalty multiplier
lie in `(0, 1]`. -/
theorem c10_total_positive_and_bounded (base : ℝ) (hb : 0 < base)
    (imp : Importance) (s : SubScores)
    (hfr : 0 ≤ imp.frontality ∧ imp.frontality ≤ 10)
    (hsh : 0 ≤ imp.sharpness ∧ imp.sharpness ≤ 10)
    (hfs : 0 ≤ imp.face_size ∧ imp.face_size ≤ 10)
    (hbr : 0 ≤ imp.brightness ∧ imp.brightness ≤ 10)
    (hct : 0 ≤ imp.contrast ∧ imp.contrast ≤ 10) :
    0 < compute_quality_total base imp s ∧
      compute_quality_total base imp s ≤ base := by
  unfold compute_quality_total
  have p1 : 0 < apply_penalty base s.frontality imp.frontality :=
    apply_penalty_pos hb _ _
  have p2 : 0 < apply_penalty (apply_penalty base s.frontality imp.frontality)
      s.sharpness imp.sharpness := apply_penalty_pos p1 _ _
  have p3 : 0 < apply_penalty (apply_penalty (apply_penalty base s.frontality
      imp.frontality) s.sharpness imp.sharpness) s.face_size imp.face_size :=
    apply_penalty_pos p2 _ _
  have p4 : 0 < apply_penalty (apply_penalty (apply_penalty (apply_penalty base
      s.frontality imp.frontality) s.sharpness imp.sharpness) s.face_size
      imp.face_size) s.brightness imp.brightness := apply_penalty_pos p3 _ _
  refine ⟨apply_penalty_pos p4 _ _, ?_⟩
  calc apply_penalty (apply_penalty (apply_penalty (apply_penalty
          (apply_penalty base s.frontality imp.frontality) s.sharpness
          imp.sharpness) s.face_size imp.face_size) s.brightness
          imp.brightness) s.contrast imp.contrast
      ≤ apply_penalty (apply_penalty (apply_penalty (apply_penalty base
          s.frontality imp.frontality) s.sharpness imp.sharpness) s.face_size
          imp.face_size) s.brightness imp.brightness :=
        apply_penalty_le_self (le_of_lt p4) _ hct.1
    _ ≤ apply_penalty (apply_penalty (apply_penalty base s.frontality
          imp.frontality) s.sharpness imp.sharpness) s.face_size imp.face_size :=
        apply_penalty_le_self (le_of_lt p3) _ hbr.1
    _ ≤ apply_penalty (apply_penalty base s.frontality imp.frontality)
          s.sharpness imp.sharpness :=
        apply_penalty_le_self (le_of_lt p2) _ hfs.1
    _ ≤ apply_penalty base s.frontality imp.frontality :=
        apply_penalty_le_self (le_of_lt p1) _ hsh.1
    _ ≤ base := apply_penalty_le_self (le_of_lt hb) _ hfr.1

/-- Witness for C10 at the production configuration and a middling frame. -/
theorem c10_total_positive_and_bounded_witness :
    ((0:ℝ) < 1000 ∧ (0:ℝ) ≤ 8 ∧ (8:ℝ) ≤ 10) ∧
    (0 < compute_quality_total 1000 ⟨8, 0, 5, 0, 0⟩ ⟨0.5, 0.5, 0.5, 0.5, 0.5⟩ ∧
      compute_quality_total 1000 ⟨8, 0, 5, 0, 0⟩ ⟨0.5, 0.5, 0.5, 0.5, 0.5⟩ ≤ 1000) :=
  ⟨by norm_num,
   c10_total_positive_and_bounded 1000 (by norm_num) ⟨8, 0, 5, 0, 0⟩
     ⟨0.5, 0.5, 0.5, 0.5, 0.5⟩ (by constructor <;> norm_num)
     (by constructor <;> norm_num) (by constructor <;> norm_num)
     (by constructor <;> norm_num) (by constructor <;> norm_num)⟩

/-- C4: whenever at least one frame passes the fusion gates, the normalized
fusion weights reported in the fusion details sum to exactly 1, for every
`min_quality_score > 0`, every `top_n ≥ 1` and every `weight_power`. -/
theorem c4_fusion_weights_sum_to_one {α : Type} {n : ℕ}
    (extract : α → List (FaceResult n)) (scored_frames : List (ScoredFrame α))
    (min_quality_score min_detection_score : ℝ) (top_n : ℕ) (weight_power : ℝ)
    (hmq : 0 < min_quality_score) (htn : 1 ≤ top_n)
    (hne : fuse_loop extract min_quality_score min_detection_score top_n
      scored_frames 0 ≠ []) :
    (((compute_fused_embedding extract scored_frames min_quality_score
        min_detection_score top_n weight_power).2.1).map fun t => t.2.2).sum = 1 := by
  obtain ⟨a, rest, hacc⟩ : ∃ a rest,
      fuse_loop extract min_quality_score min_detection_score top_n
        scored_frames 0 = a :: rest := by
    cases hc : fuse_loop extract min_quality_score min_detection_score top_n
        scored_frames 0 with
    | nil => exact absurd hc hne
    | cons a rest => exact ⟨a, rest, rfl⟩
  unfold compute_fused_embedding
  rw [hacc]
  dsimp only
  rw [zip_details_weights _ _ (by simp)]
  rw [list_sum_map_div]
  apply div_self
  apply ne_of_gt
  apply List.sum_pos
  · intro x hx
    rw [List.mem_map] at hx
    obtain ⟨y, hy, rfl⟩ := hx
    have hq := fuse_loop_quality extract min_quality_score min_detection_score
      top_n scored_frames 0 y (by rw [hacc]; exact hy)
    push_neg at hq
    exact Real.rpow_pos_of_pos (lt_of_lt_of_le hmq hq) weight_power
  · simp

/-- C5: when exactly one frame passes all the fusion gates, the fused
embedding is that frame's own extracted embedding divided by its Euclidean
norm — the unit-normalized single embedding, with no other alteration. -/
theorem c5_single_frame_fusion {α : Type} {n : ℕ}
    (extract : α → List (FaceResult n)) (scored_frames : List (ScoredFrame α))
    (min_quality_score min_detection_score : ℝ) (top_n : ℕ) (weight_power : ℝ)
    (hmq : 0 < min_quality_score) (x : ScoredFrame α × FaceResult n)
    (hone : fuse_loop extract min_quality_score min_detection_score top_n
      scored_frames 0 = [x]) :
    (compute_fused_embedding extract scored_frames min_quality_score
        min_detection_score top_n weight_power).1 =
      some (l2_normalize x.2.1) := by
  have hq := fuse_loop_quality extract min_quality_score min_detection_score
    top_n scored_frames 0 x (by rw [hone]; exact List.mem_singleton_self x)
  push_neg at hq
  have hw : x.1.score.total ^ weight_power ≠ 0 :=
    ne_of_gt (Real.rpow_pos_of_pos (lt_of_lt_of_le hmq hq) weight_power)
  unfold compute_fused_embedding
  rw [hone]
  dsimp only
  simp [div_self hw]

/-- C8: whenever at least one frame is accepted by the fusion gates, the
representative frame returned for upload is the lowres frame of the first
accepted (highest-scoring qualifying) entry, and the representative bbox is
the bbox of that same entry's quality score — both projections of the same
scored-frame record, never taken from any other frame. -/
theorem c8_representative_from_first_accepted {α : Type} {n : ℕ}
    (extract : α → List (FaceResult n)) (scored_frames : List (ScoredFrame α))
    (min_quality_score min_detection_score : ℝ) (top_n : ℕ) (weight_power : ℝ)
    (a : ScoredFrame α × FaceResult n) (rest : List (ScoredFrame α × FaceResult n))
    (hacc : fuse_loop extract min_quality_score min_detection_score top_n
      scored_frames 0 = a :: rest) :
    (compute_fused_embedding extract scored_frames min_quality_score
        min_detection_score top_n weight_power).2.2.1 = some a.1.lowres ∧
    (compute_fused_embedding extract scored_frames min_quality_score
        min_detection_score top_n weight_power).2.2.2 = some a.1.score.bbox := by
  unfold compute_fused_embedding
  rw [hacc]
  exact ⟨rfl, rfl⟩

/-- C6: when no captured frame can be scored and scoring the trigger frame
also fails, `select_best_frame` still returns normally, with the all-zero
fallback score: the returned total is 0. -/
theorem c6_trigger_fallback_zero_total {α : Type}
    (scorer : α → Option QualityScore) (capture : PersonCapture α)
    (skip_start skip_end : ℕ)
    (hall : ∀ p ∈ capture.frames, scorer p.2 = none)
    (htrig : scorer capture.trigger_frame.2 = none) :
    (select_best_frame scorer capture skip_start skip_end).2.2.1.total = 0 := by
  have hscored : score_frames_dual scorer
      (trim_frames capture.frames skip_start skip_end) = [] := by
    unfold score_frames_dual
    have hfm : (trim_frames capture.frames skip_start skip_end).enum.filterMap
        (fun p => (scorer p.2.2).map fun q =>
          ScoredFrame.mk p.1 p.2.1 p.2.2 q) = [] := by
      rw [List.filterMap_eq_nil_iff]
      rintro ⟨i, f⟩ hq
      have hf : f ∈ trim_frames capture.frames skip_start skip_end := by
        have h1 := List.mem_enum hq
        obtain ⟨hi, hfe⟩ := h1
        rw [hfe]
        exact List.getElem_mem hi
      have hmem : f ∈ capture.frames :=
        (trim_frames_sublist capture.frames skip_start skip_end).subset hf
      simp [hall f hmem]
    rw [hfm, List.mergeSort_nil]
  unfold select_best_frame
  dsimp only
  rw [hscored]
  dsimp only
  rw [htrig]
  rfl

/-- Witness for C6: a session whose capture list is empty and whose trigger
frame the scorer rejects yields the all-zero fallback score. -/
theorem c6_trigger_fallback_zero_total_witness :
    ((∀ p ∈ ([] : List (ℕ × ℕ)), (fun _ : ℕ => (none : Option QualityScore)) p.2 = none) ∧
      (fun _ : ℕ => (none : Option QualityScore)) 0 = none) ∧
    (select_best_frame (fun _ : ℕ => (none : Option QualityScore))
        ⟨[], (0, 0)⟩ 0 0).2.2.1.total = 0 :=
  ⟨⟨fun p hp => absurd hp (List.not_mem_nil p), rfl⟩,
   c6_trigger_fallback_zero_total (fun _ => none) ⟨[], (0, 0)⟩ 0 0
     (fun p hp => absurd hp (List.not_mem_nil p)) rfl⟩

/-- A concrete quality score (total 900) used to exercise the fusion path. -/
def demo_score : QualityScore :=
  ⟨900, 1, 1, 1, 1, 1, 0, 0, ⟨10, 10, 20, 20⟩⟩

/-- A concrete scored frame (frames are identified by naturals here). -/
def demo_frame : ScoredFrame ℕ :=
  ⟨0, 5, 7, demo_score⟩

/-- A concrete 1-dimensional embedding. -/
def demo_embedding : Fin 1 → ℝ :=
  fun _ => 1

/-- A concrete extractor result with detection confidence 0.9. -/
noncomputable def demo_face : FaceResult 1 :=
  (demo_embedding, ⟨0, 0, 1, 1⟩, 0.9)

/-- A concrete extractor that finds `demo_face` in every frame. -/
noncomputable def demo_extract : ℕ → List (FaceResult 1) :=
  fun _ => [demo_face]

/-- On the single demo frame, the fusion gates (quality 900 ≥ 500,
extraction succeeds, detection 0.9 ≥ 0.8) accept exactly that frame. -/
lemma demo_fuse_loop :
    fuse_loop demo_extract 500 0.8 3 [demo_frame] 0 = [(demo_frame, demo_face)] := by
  simp only [fuse_loop, demo_extract, demo_frame, demo_score, demo_face]
  norm_num

/-- Witness for C4 on the single demo frame with `top_n = 3`,
`weight_power = 0.3`. -/
theorem c4_fusion_weights_sum_to_one_witness :
    ((0:ℝ) < 500 ∧ 1 ≤ 3 ∧
      fuse_loop demo_extract 500 0.8 3 [demo_frame] 0 ≠ []) ∧
    (((compute_fused_embedding demo_extract [demo_frame] 500 0.8 3 0.3).2.1).map
      fun t => t.2.2).sum = 1 :=
  ⟨⟨by norm_num, by norm_num, by rw [demo_fuse_loop]; simp⟩,
   c4_fusion_weights_sum_to_one demo_extract [demo_frame] 500 0.8 3 0.3
     (by norm_num) (by norm_num) (by rw [demo_fuse_loop]; simp)⟩

/-- Witness for C5: with the demo frame as the single qualifying frame, the
fused embedding is its unit-normalized embedding. -/
theorem c5_single_frame_fusion_witness :
    ((0:ℝ) < 500 ∧
      fuse_loop demo_extract 500 0.8 3 [demo_frame] 0 = [(demo_frame, demo_face)]) ∧
    (compute_fused_embedding demo_extract [demo_frame] 500 0.8 3 0.3).1 =
      some (l2_normalize demo_face.1) :=
  ⟨⟨by norm_num, demo_fuse_loop⟩,
   c5_single_frame_fusion demo_extract [demo_frame] 500 0.8 3 0.3
     (by norm_num) (demo_frame, demo_face) demo_fuse_loop⟩

/-- Witness for C8: the representative frame and bbox both come from the
demo frame, the first (and only) accepted entry. -/
theorem c8_representative_from_first_accepted_witness :
    (fuse_loop demo_extract 500 0.8 3 [demo_frame] 0 = [(demo_frame, demo_face)]) ∧
    (compute_fused_embedding demo_extract [demo_frame] 500 0.8 3 0.3).2.2.1 =
      some demo_frame.lowres ∧
    (compute_fused_embedding demo_extract [demo_frame] 500 0.8 3 0.3).2.2.2 =
      some demo_frame.score.bbox :=
  ⟨demo_fuse_loop,
   (c8_representative_from_first_accepted demo_extract [demo_frame] 500 0.8 3 0.3
      (demo_frame, demo_face) [] demo_fuse_loop).1,
   (c8_representative_from_first_accepted demo_extract [demo_frame] 500 0.8 3 0.3
      (demo_frame, demo_face) [] demo_fuse_loop).2⟩
